import Mathlib

/-!
Verification development for the ccusage-gorgeous rendering pipeline.

Shallow embedding of the two core components of the repository:

* the rainbow animation plugin
  (`internal/plugins/animation`, file embedded alongside
  `internal/application/interfaces/plugin.go`): frame generation for the
  four color patterns (`rainbow`, `gradient`, `pulse`, `wave`) and
  animation-config validation;
* the rainbow TUI display plugin (`internal/plugins/display/rainbow_tui.go`):
  ASCII-art rasterization of the formatted cost, centering within the
  viewport, and per-cell color application.

Modelling conventions:

* Go `string` values that the display code manipulates character by
  character are modelled as `List Char` (`GoStr`); Go's `len` on a string
  is the UTF-8 byte count, modelled by `goBytes`; Go's
  `for i, c := range s` yields (byte offset, rune) pairs, modelled by
  `rangeBytes`.  Palette colors and pattern names, which the code treats
  as opaque tokens (except for byte-level validation), are modelled as
  Lean `String`s.
* Go `int` (viewport sizes) is modelled as `Int`; frame numbers, which the
  application supplies as a monotone counter starting at 0, are modelled
  as `Nat`.
* Go `float64` arithmetic is modelled by exact rational arithmetic (`ℚ`);
  `math.Sin` is modelled by `sinQ`, Taylor approximation of the real sine
  after range reduction.  No theorem below depends on the numeric values
  of the sine model, only on the structure of the surrounding code.
* `lipgloss` styling is modelled abstractly: the rendered output is a
  token list (`Tok`), a plain character or a character styled with a
  foreground color.
-/

namespace CcusageGorgeous

/-- Go strings handled character-wise: a list of runes. -/
abbrev GoStr := List Char

/-- Go `len(s)` for a string: its UTF-8 byte count. -/
def goBytes (s : GoStr) : Nat := (s.map Char.utf8Size).sum

/-- Go `for i, c := range s` starting at byte offset `off`. -/
def rangeBytesAux : Nat → GoStr → List (Nat × Char)
  | _, [] => []
  | off, c :: rest => (off, c) :: rangeBytesAux (off + c.utf8Size) rest

/-- Go `for i, c := range s`: (byte offset, rune) pairs. -/
def rangeBytes (s : GoStr) : List (Nat × Char) := rangeBytesAux 0 s

/-- Go `strings.Split(s, "\n")`. -/
def splitLines : GoStr → List GoStr
  | [] => [[]]
  | c :: rest =>
    if c = '\n' then [] :: splitLines rest
    else
      match splitLines rest with
      | [] => [[c]]
      | l :: ls => (c :: l) :: ls

/-- Go `strings.Join(ls, sep)`, and the builder loops of the display plugin
that append `sep` after every element but the last. -/
def joinWith {α : Type} (sep : List α) : List (List α) → List α
  | [] => []
  | [l] => l
  | l :: rest => l ++ sep ++ joinWith sep rest

/-- Rational stand-in for the real constant pi, used by the model `sinQ`
of Go `math.Sin`. -/
def ratPi : ℚ := 3141592653589793 / 1000000000000000

/-- Degree-13 Taylor polynomial of sine, applied to arguments reduced into
`(-pi, pi]` by `sinQ`. -/
def sinTaylor (y : ℚ) : ℚ :=
  y - y ^ 3 / 6 + y ^ 5 / 120 - y ^ 7 / 5040 + y ^ 9 / 362880
    - y ^ 11 / 39916800 + y ^ 13 / 6227020800

/-- Model of Go `math.Sin` on `float64`: the argument is reduced modulo
2 pi into `(-pi, pi]` and the sine is approximated by `sinTaylor`.  The
theorems below never depend on its numeric values. -/
def sinQ (x : ℚ) : ℚ :=
  let twoPi := 2 * ratPi
  let r := x - twoPi * ((Rat.floor (x / twoPi) : Int) : ℚ)
  let y := if r ≤ ratPi then r else r - twoPi
  sinTaylor y

/-- domain.AnimationConfig.  `Speed` is a Go `time.Duration` (an `int64`
count of nanoseconds), modelled as `Int`; `Pattern` is a Go string type. -/
structure AnimationConfig where
  speed : Int
  colors : List String
  enabled : Bool
  pattern : String
  deriving DecidableEq

/-- domain.AnimationFrame.  The `Timestamp` field (wall-clock time, never
read by the pipeline) is omitted. -/
structure AnimationFrame where
  colors : List String
  text : GoStr
  deriving DecidableEq

/-- domain.PatternRainbow. -/
def patternRainbow : String := "rainbow"

/-- domain.PatternGradient. -/
def patternGradient : String := "gradient"

/-- domain.PatternPulse. -/
def patternPulse : String := "pulse"

/-- domain.PatternWave. -/
def patternWave : String := "wave"

/-- RainbowAnimationPlugin.GetSupportedPatterns. -/
def getSupportedPatterns : List String :=
  [patternRainbow, patternGradient, patternPulse, patternWave]

/-- RainbowAnimationPlugin.generateRainbowColors: rotating palette offset
`(frameNumber + i) mod len(baseColors)` at each position `i`. -/
def generateRainbowColors (frameNumber textLength : Nat)
    (baseColors : List String) : List String :=
  if baseColors.isEmpty then ["#FFFFFF"]
  else
    (List.range textLength).map fun i =>
      baseColors.getD ((frameNumber + i) % baseColors.length) ""

/-- RainbowAnimationPlugin.generateGradientColors.  The Go float literal
`0.01` is modelled as `1/100`; Go `int(x)` truncation agrees with the
floor used here because the argument is nonnegative. -/
def generateGradientColors (frameNumber textLength : Nat)
    (baseColors : List String) : List String :=
  if baseColors.isEmpty then ["#FFFFFF"]
  else if textLength = 1 then
    [baseColors.getD (frameNumber % baseColors.length) ""]
  else
    (List.range textLength).map fun i =>
      let progress : ℚ := (i : ℚ) / ((textLength : ℚ) - 1)
      let gradientPos : ℚ := progress + (frameNumber : ℚ) * (1 / 100)
      let colorIndex :=
        (Rat.floor (gradientPos * (baseColors.length : ℚ))).toNat % baseColors.length
      baseColors.getD colorIndex ""

/-- RainbowAnimationPlugin.generatePulseColors: one color for the whole
text, `baseColors[0]` when `sin(frameNumber * 0.2) > 0` and otherwise
`baseColors[1]` (just `baseColors[0]` when the palette has fewer than two
entries).  The Go float literal `0.2` is modelled as `1/5`. -/
def generatePulseColors (frameNumber textLength : Nat)
    (baseColors : List String) : List String :=
  if baseColors.isEmpty then ["#FFFFFF"]
  else
    let pulseValue := sinQ ((frameNumber : ℚ) * (1 / 5))
    let currentColor :=
      if 2 ≤ baseColors.length then
        if 0 < pulseValue then baseColors.getD 0 "" else baseColors.getD 1 ""
      else baseColors.getD 0 ""
    List.replicate textLength currentColor

/-- RainbowAnimationPlugin.generateWaveColors.  Go float literals `0.1`
and `0.5` are modelled as `1/10` and `1/2`; Go `int(x)` truncation agrees
with floor followed by `Int.toNat` on the nonnegative arguments that
arise. -/
def generateWaveColors (frameNumber textLength : Nat)
    (baseColors : List String) : List String :=
  if baseColors.isEmpty then ["#FFFFFF"]
  else
    (List.range textLength).map fun i =>
      let waveValue := sinQ ((frameNumber : ℚ) * (1 / 10) + (i : ℚ) * (1 / 2))
      let colorIndex :=
        (Rat.floor ((waveValue + 1) / 2 * (baseColors.length : ℚ))).toNat
          % baseColors.length
      baseColors.getD colorIndex ""

/-- RainbowAnimationPlugin.GenerateFrame.  `pluginEnabled` is the
receiver's `enabled` field; the frame's timestamp is omitted as in
`AnimationFrame`; Go `len(text)` is the byte count `goBytes text`. -/
def generateFrame (pluginEnabled : Bool) (text : GoStr) (frameNumber : Nat)
    (config : Option AnimationConfig) : Except String AnimationFrame :=
  if !pluginEnabled then .error "plugin is not enabled"
  else
    match config with
    | none => .error "animation config is required"
    | some cfg =>
      if !cfg.enabled then .ok ⟨["#FFFFFF"], text⟩
      else
        let n := goBytes text
        let colors :=
          if cfg.pattern = patternRainbow then
            generateRainbowColors frameNumber n cfg.colors
          else if cfg.pattern = patternGradient then
            generateGradientColors frameNumber n cfg.colors
          else if cfg.pattern = patternPulse then
            generatePulseColors frameNumber n cfg.colors
          else if cfg.pattern = patternWave then
            generateWaveColors frameNumber n cfg.colors
          else
            generateRainbowColors frameNumber n cfg.colors
        .ok ⟨colors, text⟩

/-- The per-color check of RainbowAnimationPlugin.ValidateAnimationConfig:
Go `len(color) != 7 || color[0] != '#'`.  `len` is the byte count and
`color[0]` the first byte; for a string whose byte count is 7 the first
byte equals `'#'` exactly when its first character does, since no UTF-8
continuation of a multi-byte character starts with the byte 0x23. -/
def colorFormatInvalid (color : String) : Bool :=
  color.utf8ByteSize != 7 || color.front != '#'

/-- The color-validation loop of ValidateAnimationConfig: the first
invalid palette entry, with its index. -/
def findInvalidColor : Nat → List String → Option (Nat × String)
  | _, [] => none
  | i, color :: rest =>
    if colorFormatInvalid color then some (i, color)
    else findInvalidColor (i + 1) rest

/-- RainbowAnimationPlugin.ValidateAnimationConfig: `none` when the
configuration is accepted, `some errorMessage` otherwise. -/
def validateAnimationConfig (config : Option AnimationConfig) : Option String :=
  match config with
  | none => some "animation config cannot be nil"
  | some cfg =>
    if cfg.speed ≤ 0 then some "animation speed must be positive"
    else if cfg.colors.length = 0 then some "at least one color must be specified"
    else
      match findInvalidColor 0 cfg.colors with
      | some ic =>
        some ("invalid color format at index " ++ toString ic.1 ++ ": " ++ ic.2)
      | none =>
        if getSupportedPatterns.contains cfg.pattern then none
        else some ("unsupported animation pattern: " ++ cfg.pattern)


/-- Tokenized styled terminal output: lipgloss styling is modelled
abstractly as a character carrying its foreground color. -/
inductive Tok where
  | plain (c : Char)
  | styled (color : String) (c : Char)
  deriving DecidableEq

/-- A plain (unstyled) Go string as a token list. -/
def plainToks (s : GoStr) : List Tok := s.map Tok.plain

/-- RainbowTUIPlugin.getSmallLetterPatterns: the compact 7-row glyph set,
as the partial map Go uses (`map[rune][]string`). -/
def getSmallLetterPatterns (c : Char) : Option (List GoStr) :=
  match c with
  | '$' => some [
      "    ███  ".toList,
      " ███████ ".toList,
      "███ ███  ".toList,
      " ███████ ".toList,
      "  ███ ███".toList,
      " ███████ ".toList,
      "   ███   ".toList]
  | '0' => some [
      " ███████ ".toList,
      "███   ███".toList,
      "███   ███".toList,
      "███   ███".toList,
      "███   ███".toList,
      "███   ███".toList,
      " ███████ ".toList]
  | '1' => some [
      "   ███   ".toList,
      " █████   ".toList,
      "   ███   ".toList,
      "   ███   ".toList,
      "   ███   ".toList,
      "   ███   ".toList,
      " ███████ ".toList]
  | '2' => some [
      " ███████ ".toList,
      "███   ███".toList,
      "      ███".toList,
      " ███████ ".toList,
      "███      ".toList,
      "███      ".toList,
      "█████████".toList]
  | '3' => some [
      " ███████ ".toList,
      "███   ███".toList,
      "      ███".toList,
      "   █████ ".toList,
      "      ███".toList,
      "███   ███".toList,
      " ███████ ".toList]
  | '4' => some [
      "███   ███".toList,
      "███   ███".toList,
      "███   ███".toList,
      "█████████".toList,
      "      ███".toList,
      "      ███".toList,
      "      ███".toList]
  | '5' => some [
      "█████████".toList,
      "███      ".toList,
      "███      ".toList,
      "████████ ".toList,
      "      ███".toList,
      "███   ███".toList,
      " ███████ ".toList]
  | '6' => some [
      " ███████ ".toList,
      "███   ███".toList,
      "███      ".toList,
      "████████ ".toList,
      "███   ███".toList,
      "███   ███".toList,
      " ███████ ".toList]
  | '7' => some [
      "█████████".toList,
      "      ███".toList,
      "     ███ ".toList,
      "    ███  ".toList,
      "   ███   ".toList,
      "  ███    ".toList,
      " ███     ".toList]
  | '8' => some [
      " ███████ ".toList,
      "███   ███".toList,
      "███   ███".toList,
      " ███████ ".toList,
      "███   ███".toList,
      "███   ███".toList,
      " ███████ ".toList]
  | '9' => some [
      " ███████ ".toList,
      "███   ███".toList,
      "███   ███".toList,
      " ████████".toList,
      "      ███".toList,
      "███   ███".toList,
      " ███████ ".toList]
  | '.' => some [
      "      ".toList,
      "      ".toList,
      "      ".toList,
      "      ".toList,
      "      ".toList,
      " ███  ".toList,
      " ███  ".toList]
  | ' ' => some [
      "         ".toList,
      "         ".toList,
      "         ".toList,
      "         ".toList,
      "         ".toList,
      "         ".toList,
      "         ".toList]
  | _ => none

/-- RainbowTUIPlugin.getLargeLetterPatterns: the full 10-row glyph set. -/
def getLargeLetterPatterns (c : Char) : Option (List GoStr) :=
  match c with
  | '$' => some [
      "     ████     ".toList,
      "  ███████████ ".toList,
      " ████ ███     ".toList,
      "████  ████    ".toList,
      " ███████████  ".toList,
      "  ███████████ ".toList,
      "     ████ ████".toList,
      "████████  ████".toList,
      " ███████████  ".toList,
      "     ████     ".toList]
  | '0' => some [
      "  ██████████  ".toList,
      " ████    ████ ".toList,
      "████      ████".toList,
      "████      ████".toList,
      "████      ████".toList,
      "████      ████".toList,
      "████      ████".toList,
      "████      ████".toList,
      " ████    ████ ".toList,
      "  ██████████  ".toList]
  | '1' => some [
      "     ████     ".toList,
      "  ███████     ".toList,
      "     ████     ".toList,
      "     ████     ".toList,
      "     ████     ".toList,
      "     ████     ".toList,
      "     ████     ".toList,
      "     ████     ".toList,
      "     ████     ".toList,
      "██████████████".toList]
  | '2' => some [
      "  ███████████ ".toList,
      " ████     ████".toList,
      "          ████".toList,
      "         ████ ".toList,
      "       ████   ".toList,
      "     ████     ".toList,
      "   ████       ".toList,
      " ████         ".toList,
      "████          ".toList,
      "██████████████".toList]
  | '3' => some [
      "  ███████████ ".toList,
      " ████     ████".toList,
      "          ████".toList,
      "          ████".toList,
      "     █████████".toList,
      "          ████".toList,
      "          ████".toList,
      "          ████".toList,
      " ████     ████".toList,
      "  ███████████ ".toList]
  | '4' => some [
      "████      ████".toList,
      "████      ████".toList,
      "████      ████".toList,
      "████      ████".toList,
      "██████████████".toList,
      "          ████".toList,
      "          ████".toList,
      "          ████".toList,
      "          ████".toList,
      "          ████".toList]
  | '5' => some [
      "██████████████".toList,
      "████          ".toList,
      "████          ".toList,
      "████          ".toList,
      "█████████████ ".toList,
      "          ████".toList,
      "          ████".toList,
      "          ████".toList,
      " ████     ████".toList,
      "  ███████████ ".toList]
  | '6' => some [
      "  ███████████ ".toList,
      " ████     ████".toList,
      "████          ".toList,
      "████          ".toList,
      "█████████████ ".toList,
      "████      ████".toList,
      "████      ████".toList,
      "████      ████".toList,
      " ████     ████".toList,
      "  ███████████ ".toList]
  | '7' => some [
      "██████████████".toList,
      "          ████".toList,
      "         ████ ".toList,
      "        ████  ".toList,
      "       ████   ".toList,
      "      ████    ".toList,
      "     ████     ".toList,
      "    ████      ".toList,
      "   ████       ".toList,
      "  ████        ".toList]
  | '8' => some [
      "  ██████████  ".toList,
      " ████    ████ ".toList,
      "████      ████".toList,
      " ████    ████ ".toList,
      "  ██████████  ".toList,
      " ████    ████ ".toList,
      "████      ████".toList,
      "████      ████".toList,
      " ████    ████ ".toList,
      "  ██████████  ".toList]
  | '9' => some [
      "  ██████████  ".toList,
      " ████    ████ ".toList,
      "████      ████".toList,
      "████      ████".toList,
      " █████████████".toList,
      "          ████".toList,
      "          ████".toList,
      "          ████".toList,
      " ████     ███ ".toList,
      "  ██████████  ".toList]
  | '.' => some [
      "         ".toList,
      "         ".toList,
      "         ".toList,
      "         ".toList,
      "         ".toList,
      "         ".toList,
      "         ".toList,
      " ██████  ".toList,
      " ██████  ".toList,
      " ██████  ".toList]
  | ' ' => some [
      "              ".toList,
      "              ".toList,
      "              ".toList,
      "              ".toList,
      "              ".toList,
      "              ".toList,
      "              ".toList,
      "              ".toList,
      "              ".toList,
      "              ".toList]
  | _ => none

/-- The glyph-set selection of RainbowTUIPlugin.generateASCIIArt: the
compact 7-row set when `width < 40 || height < 12`, the full 10-row set
otherwise, together with `numRows`. -/
def selectPatterns (width height : Int) : (Char → Option (List GoStr)) × Nat :=
  if width < 40 ∨ height < 12 then (getSmallLetterPatterns, 7)
  else (getLargeLetterPatterns, 10)

/-- One iteration body of the rasterizing loop of generateASCIIArt: Go
`for i, line := range pattern { lines[i] += line; if withGap { lines[i] += "  " } }`.
A glyph with more rows than `lines` would make Go panic with an index
error; that case cannot arise for the fixed glyph tables, whose row
counts equal the selected `numRows`. -/
def addCharToLines : List GoStr → List GoStr → Bool → List GoStr
  | lines, [], _ => lines
  | [], _ :: _, _ => []
  | l :: lines, p :: pat, withGap =>
    (l ++ p ++ if withGap then [' ', ' '] else []) :: addCharToLines lines pat withGap

/-- The character loop of generateASCIIArt: `off` is the byte offset of
the current character (Go `for charIndex, char := range text`), `total`
the byte count of the whole text; a character absent from the glyph table
leaves the canvas unchanged, a present one appends its glyph rows plus a
2-space gap whenever `charIndex < len(text)-1`. -/
def buildAux (patterns : Char → Option (List GoStr)) (total : Nat) :
    Nat → GoStr → List GoStr → List GoStr
  | _, [], lines => lines
  | off, c :: rest, lines =>
    let nextLines :=
      match patterns c with
      | some pat => addCharToLines lines pat (decide (off < total - 1))
      | none => lines
    buildAux patterns total (off + c.utf8Size) rest nextLines

/-- The rasterizing core of RainbowTUIPlugin.generateASCIIArt, applied to
an already formatted source text. -/
def generateASCIIArtText (text : GoStr) (width height : Int) : GoStr :=
  let ps := selectPatterns width height
  joinWith ['\n'] (buildAux ps.1 (goBytes text) 0 text (List.replicate ps.2 []))

/-- Decimal digits of a natural number, for the model of Go `fmt`
formatting. -/
def natDecimal (n : Nat) : GoStr := (toString n).toList

/-- Round to the nearest integer, ties to even: the rounding Go `fmt`
applies when formatting with `%.2f`. -/
def roundHalfEven (q : ℚ) : Int :=
  let n := Rat.floor q
  let frac := q - (n : ℚ)
  if (1 : ℚ) / 2 < frac then n + 1
  else if frac < 1 / 2 then n
  else if n % 2 = 0 then n else n + 1

/-- Two-decimal digit pair `cents % 100`, zero padded. -/
def twoDigit (n : Nat) : GoStr :=
  if n < 10 then '0' :: natDecimal n else natDecimal n

/-- Go `fmt.Sprintf("%.2f", q)` for nonnegative `q`, on the rational
model of float64. -/
def formatFixed2Abs (q : ℚ) : GoStr :=
  let cents := (roundHalfEven (q * 100)).toNat
  natDecimal (cents / 100) ++ '.' :: twoDigit (cents % 100)

/-- Go `fmt.Sprintf("%.2f", q)`. -/
def formatFixed2 (q : ℚ) : GoStr :=
  if q < 0 then '-' :: formatFixed2Abs (-q) else formatFixed2Abs q

/-- The text formatting of generateASCIIArt: `fmt.Sprintf("$%.2f", amount)`. -/
def formatDollar (amount : ℚ) : GoStr := '$' :: formatFixed2 amount

/-- RainbowTUIPlugin.generateASCIIArt: format the amount, then rasterize
with the viewport-selected glyph set. -/
def generateASCIIArt (amount : ℚ) (width height : Int) : GoStr :=
  generateASCIIArtText (formatDollar amount) width height

/-- The maximum-line-width scan of RainbowTUIPlugin.centerASCIIArt
(`len([]rune(line))`, the rune count). -/
def maxLineWidth (lines : List GoStr) : Nat :=
  lines.foldl (fun m l => if m < l.length then l.length else m) 0

/-- The horizontal padding centerASCIIArt computes:
`(width - maxLineWidth) / 2` when `width > maxLineWidth`, else 0.  The
operands are positive in the branch taken, so Go's truncated `int`
division agrees with the `Nat` division used here. -/
def hpadOf (lines : List GoStr) (width : Int) : Nat :=
  if (maxLineWidth lines : Int) < width then (width - (maxLineWidth lines : Int)).toNat / 2
  else 0

/-- The vertical padding centerASCIIArt computes:
`(height - len(lines)) / 2` when `height > len(lines)`, else 0. -/
def vpadOf (lines : List GoStr) (height : Int) : Nat :=
  if (lines.length : Int) < height then (height - (lines.length : Int)).toNat / 2
  else 0

/-- RainbowTUIPlugin.centerASCIIArt: split into lines, pad each line on
the left with the horizontal padding, join with newlines, and surround
with the vertical padding's blank lines.  (Go writes the padding through
a `strings.Builder`; `strings.Repeat(" ", 0)` is empty, so the
`horizontalPadding > 0` guard is immaterial.) -/
def centerASCIIArt (asciiArt : GoStr) (width height : Int) : GoStr :=
  let lines := splitLines asciiArt
  if lines.length = 0 then []
  else
    let hp := hpadOf lines width
    let vp := vpadOf lines height
    List.replicate vp '\n'
      ++ joinWith ['\n'] (lines.map fun l => List.replicate hp ' ' ++ l)
      ++ List.replicate vp '\n'

/-- The inner loop of RainbowTUIPlugin.applyRainbowColors on one line:
every cell (byte offset `off`, rune `c`) is styled with
`colors[(lineIndex*len(line) + off) % len(colors)]`, `len(line)` being
the line's byte count. -/
def styleLine (colors : List String) (lineIndex : Nat) (line : GoStr) : List Tok :=
  (rangeBytes line).map fun oc =>
    Tok.styled (colors.getD ((lineIndex * goBytes line + oc.1) % colors.length) "") oc.2

/-- The outer loop of applyRainbowColors: style each line with its index. -/
def styleLines (colors : List String) : Nat → List GoStr → List (List Tok)
  | _, [] => []
  | lineIndex, line :: rest =>
    styleLine colors lineIndex line :: styleLines colors (lineIndex + 1) rest

/-- RainbowTUIPlugin.applyRainbowColors: unchanged plain text when the
animation frame is nil or has no colors, otherwise every cell of every
line styled by the per-cell formula of `styleLine`, lines joined with
newlines. -/
def applyRainbowColors (text : GoStr) (animation : Option AnimationFrame) : List Tok :=
  match animation with
  | none => plainToks text
  | some a =>
    if a.colors.isEmpty then plainToks text
    else joinWith [Tok.plain '\n'] (styleLines a.colors 0 (splitLines text))

/-- domain.CostData.  Only `TotalCost` (a float64, modelled as ℚ) is read
by the display plugin; `Currency`, `Timestamp` and `ModelBreakdown` are
omitted. -/
structure CostData where
  totalCost : ℚ
  deriving DecidableEq

/-- domain.DisplaySize (Go `int` fields). -/
structure DisplaySize where
  width : Int
  height : Int
  deriving DecidableEq

/-- domain.DisplayConfig.  `RefreshRate` is never read by Render and is
omitted. -/
structure DisplayConfig where
  size : DisplaySize
  deriving DecidableEq

/-- domain.DisplayData.  `LastUpdated` is never read by Render and is
omitted.  `Config` is a pointer in Go; Render dereferences it without a
nil check (a nil config panics rather than returning), so the model keeps
it non-optional. -/
structure DisplayData where
  cost : Option CostData
  animation : Option AnimationFrame
  config : DisplayConfig
  deriving DecidableEq

/-- RainbowTUIPlugin.Render.  `pluginEnabled` is the receiver's `enabled`
field.  A missing cost yields the empty output `""` with no error; an
animation frame, when present, is applied by applyRainbowColors. -/
def render (pluginEnabled : Bool) (data : Option DisplayData) :
    Except String (List Tok) :=
  if !pluginEnabled then .error "plugin is not enabled"
  else
    match data with
    | none => .error "display data cannot be nil"
    | some d =>
      match d.cost with
      | none => .ok []
      | some cost =>
        let asciiArt :=
          generateASCIIArt cost.totalCost d.config.size.width d.config.size.height
        let centered :=
          centerASCIIArt asciiArt d.config.size.width d.config.size.height
        match d.animation with
        | some _ => .ok (applyRainbowColors centered d.animation)
        | none => .ok (plainToks centered)


/-! ## Helper lemmas -/

/-- Membership in one styled line: every (byte offset, rune) cell of a
line contributes its styled token. -/
theorem mem_styleLine (colors : List String) (lineIndex : Nat) (line : GoStr)
    (off : Nat) (c : Char) (hcell : (off, c) ∈ rangeBytes line) :
    Tok.styled (colors.getD ((lineIndex * goBytes line + off) % colors.length) "") c
      ∈ styleLine colors lineIndex line :=
  List.mem_map.mpr ⟨(off, c), hcell, rfl⟩

/-- The line at index `lineIndex` is styled with line index
`k + lineIndex` when the styling loop starts at `k`. -/
theorem styleLines_get (colors : List String) (k lineIndex : Nat)
    (lines : List GoStr) (line : GoStr)
    (hline : lines[lineIndex]? = some line) :
    styleLine colors (k + lineIndex) line ∈ styleLines colors k lines := by
  induction lines generalizing k lineIndex with
  | nil => simp at hline
  | cons l rest ih =>
    cases lineIndex with
    | zero =>
      simp only [List.getElem?_cons_zero, Option.some.injEq] at hline
      subst hline
      simp [styleLines]
    | succ j =>
      simp only [List.getElem?_cons_succ] at hline
      have he : k + (j + 1) = (k + 1) + j := by omega
      rw [styleLines, he]
      exact List.mem_cons_of_mem _ (ih (k + 1) j hline)

/-- Membership transfers through `joinWith`. -/
theorem mem_joinWith {α : Type} (sep : List α) (t : α) (l : List α)
    (ls : List (List α)) (hl : l ∈ ls) (ht : t ∈ l) : t ∈ joinWith sep ls := by
  revert hl
  induction ls with
  | nil => intro hl; cases hl
  | cons l0 rest ih =>
    intro hl
    cases rest with
    | nil =>
      rcases List.mem_cons.mp hl with h | h
      · subst h; simpa [joinWith] using ht
      · cases h
    | cons l1 rest2 =>
      have hj : joinWith sep (l0 :: l1 :: rest2) = l0 ++ sep ++ joinWith sep (l1 :: rest2) := rfl
      rw [hj]
      rcases List.mem_cons.mp hl with h | h
      · subst h
        exact List.mem_append.mpr (Or.inl (List.mem_append.mpr (Or.inl ht)))
      · exact List.mem_append.mpr (Or.inr (ih h))

/-- Every color the pulse pattern emits with a palette of at least two
entries is the first or the second palette entry. -/
theorem pulse_color_mem_first_two (frameNumber textLength : Nat)
    (baseColors : List String) (h2 : 2 ≤ baseColors.length) (c : String)
    (hc : c ∈ generatePulseColors frameNumber textLength baseColors) :
    c = baseColors.getD 0 "" ∨ c = baseColors.getD 1 "" := by
  obtain ⟨a, b, rest, rfl⟩ : ∃ a b rest, baseColors = a :: b :: rest := by
    cases baseColors with
    | nil => simp at h2
    | cons a t =>
      cases t with
      | nil => simp at h2
      | cons b rest => exact ⟨a, b, rest, rfl⟩
  simp only [generatePulseColors, List.isEmpty_cons, Bool.false_eq_true, if_false] at hc
  rw [if_pos (by simp)] at hc
  have hcol := List.eq_of_mem_replicate hc
  by_cases hs : 0 < sinQ ((frameNumber : ℚ) * (1 / 5))
  · left; rw [hcol, if_pos hs]
  · right; rw [hcol, if_neg hs]

/-- The color scan finds nothing exactly when every palette entry passes
the format check. -/
theorem findInvalidColor_eq_none (i : Nat) (colors : List String) :
    findInvalidColor i colors = none ↔
      ∀ color ∈ colors, colorFormatInvalid color = false := by
  induction colors generalizing i with
  | nil => simp [findInvalidColor]
  | cons c rest ih =>
    by_cases hc : colorFormatInvalid c
    · simp [findInvalidColor, hc]
    · simp only [Bool.not_eq_true] at hc
      simp [findInvalidColor, hc, ih]

/-- A hit of the color scan exhibits an invalid palette entry. -/
theorem findInvalidColor_eq_some (i : Nat) (colors : List String) (ic : Nat × String)
    (h : findInvalidColor i colors = some ic) :
    ∃ color ∈ colors, colorFormatInvalid color = true := by
  induction colors generalizing i with
  | nil => simp [findInvalidColor] at h
  | cons c rest ih =>
    by_cases hc : colorFormatInvalid c
    · exact ⟨c, List.mem_cons_self c rest, hc⟩
    · simp only [Bool.not_eq_true] at hc
      simp only [findInvalidColor, hc, Bool.false_eq_true, if_false] at h
      obtain ⟨color, hmem, hinv⟩ := ih (i + 1) h
      exact ⟨color, List.mem_cons_of_mem c hmem, hinv⟩

/-- The per-color check unfolded to a proposition. -/
theorem colorFormatInvalid_iff (color : String) :
    colorFormatInvalid color = true ↔
      color.utf8ByteSize ≠ 7 ∨ color.front ≠ '#' := by
  simp [colorFormatInvalid]

/-! ## Claims -/

/-- C4: for the cycling (rainbow) pattern with a non-empty palette, the
color at every position `i < N` is `palette[(f + i) mod P]`, the output
has length `N`, and the concrete scenario (frame 0, three-color palette,
6-character text) yields the claimed list. -/
theorem c4_cycling_formula (frameNumber textLength : Nat)
    (baseColors : List String) (hne : baseColors ≠ []) :
    (generateRainbowColors frameNumber textLength baseColors).length = textLength ∧
    (∀ i, i < textLength →
      (generateRainbowColors frameNumber textLength baseColors)[i]? =
        some (baseColors.getD ((frameNumber + i) % baseColors.length) "")) ∧
    generateRainbowColors 0 6 ["#FF0000", "#00FF00", "#0000FF"] =
      ["#FF0000", "#00FF00", "#0000FF", "#FF0000", "#00FF00", "#0000FF"] := by
  have hemp : baseColors.isEmpty = false := by
    cases baseColors with
    | nil => exact absurd rfl hne
    | cons a t => rfl
  refine ⟨?_, ?_, by decide⟩
  · simp [generateRainbowColors, hemp]
  · intro i hi
    simp [generateRainbowColors, hemp, List.getElem?_map, List.getElem?_range, hi]

/-- Witness for C4 at the spec's concrete scenario. -/
theorem c4_cycling_formula_witness :
    (generateRainbowColors 0 6 ["#FF0000", "#00FF00", "#0000FF"]).length = 6 ∧
    (∀ i, i < 6 →
      (generateRainbowColors 0 6 ["#FF0000", "#00FF00", "#0000FF"])[i]? =
        some ((["#FF0000", "#00FF00", "#0000FF"] : List String).getD
          ((0 + i) % (["#FF0000", "#00FF00", "#0000FF"] : List String).length) "")) ∧
    generateRainbowColors 0 6 ["#FF0000", "#00FF00", "#0000FF"] =
      ["#FF0000", "#00FF00", "#0000FF", "#FF0000", "#00FF00", "#0000FF"] :=
  c4_cycling_formula 0 6 ["#FF0000", "#00FF00", "#0000FF"] (by decide)

/-- C7: within a single call the pulse pattern's output is one color
replicated `N` times, for every non-empty palette, frame index and `N`. -/
theorem c7_pulse_uniform (frameNumber textLength : Nat)
    (baseColors : List String) (hne : baseColors ≠ []) :
    ∃ col, generatePulseColors frameNumber textLength baseColors =
      List.replicate textLength col := by
  cases baseColors with
  | nil => exact absurd rfl hne
  | cons a t => exact ⟨_, rfl⟩

/-- Witness for C7 at a concrete palette and frame. -/
theorem c7_pulse_uniform_witness :
    ∃ col, generatePulseColors 5 3 ["#FF0000", "#00FF00"] = List.replicate 3 col :=
  c7_pulse_uniform 5 3 ["#FF0000", "#00FF00"] (by decide)

/-- C2 (amended): with animation globally disabled, frame generation
bypasses the four patterns and returns the one-element color list
`["#FFFFFF"]`, whatever the pattern, palette, text and frame index. -/
theorem c2_disabled_single_white (text : GoStr) (frameNumber : Nat)
    (cfg : AnimationConfig) (hdis : cfg.enabled = false) :
    generateFrame true text frameNumber (some cfg) = .ok ⟨["#FFFFFF"], text⟩ := by
  simp [generateFrame, hdis]

/-- Witness for C2's amended statement. -/
theorem c2_disabled_single_white_witness :
    generateFrame true ['t', 'e', 's', 't'] 0
        (some ⟨1000000000, ["#FF0000", "#00FF00", "#0000FF"], false, patternRainbow⟩) =
      .ok ⟨["#FFFFFF"], ['t', 'e', 's', 't']⟩ :=
  c2_disabled_single_white ['t', 'e', 's', 't'] 0
    ⟨1000000000, ["#FF0000", "#00FF00", "#0000FF"], false, patternRainbow⟩ rfl

/-- C2 counterexample: with animation disabled and the 4-character text
"test", the returned color list is the single entry `["#FFFFFF"]`, not
four copies of `"#FFFFFF"` as the claim states. -/
theorem c2_disabled_counterexample :
    generateFrame true ['t', 'e', 's', 't'] 0
        (some ⟨1000000000, ["#FF0000"], false, patternRainbow⟩) =
      .ok ⟨["#FFFFFF"], ['t', 'e', 's', 't']⟩ ∧
    (["#FFFFFF"] : List String) ≠ List.replicate 4 "#FFFFFF" :=
  ⟨rfl, by decide⟩

/-- C3 (amended): glyph-set selection is a pure function of the viewport
with thresholds 40 and 12: `width < 40 OR height < 12` selects the
compact 7-row set, otherwise the full 10-row set; a 30 by 8 viewport
gets the 7-row set and a 120 by 30 viewport the 10-row set. -/
theorem c3_glyph_selection_thresholds :
    (∀ width height : Int,
      (selectPatterns width height = (getSmallLetterPatterns, 7) ↔
        width < 40 ∨ height < 12) ∧
      (selectPatterns width height = (getLargeLetterPatterns, 10) ↔
        ¬(width < 40 ∨ height < 12))) ∧
    (selectPatterns 30 8).2 = 7 ∧ (selectPatterns 120 30).2 = 10 := by
  refine ⟨fun width height => ?_, by decide, by decide⟩
  by_cases hc : width < 40 ∨ height < 12
  · have hsel : selectPatterns width height = (getSmallLetterPatterns, 7) := by
      simp only [selectPatterns, if_pos hc]
    rw [hsel]
    refine ⟨⟨fun _ => hc, fun _ => rfl⟩, ⟨fun h => ?_, fun h => absurd hc h⟩⟩
    have h2 := congrArg Prod.snd h
    simp at h2
  · have hsel : selectPatterns width height = (getLargeLetterPatterns, 10) := by
      simp only [selectPatterns, if_neg hc]
    rw [hsel]
    refine ⟨⟨fun h => ?_, fun h => absurd h hc⟩, ⟨fun _ => hc, fun _ => rfl⟩⟩
    have h2 := congrArg Prod.snd h
    simp at h2

/-- C3 counterexample: the 50 by 20 viewport is below the claimed
100 by 25 thresholds, yet the full 10-row glyph set is selected, not the
compact 7-row one. -/
theorem c3_threshold_counterexample :
    ((50 : Int) < 100 ∨ (20 : Int) < 25) ∧
    (selectPatterns 50 20).2 = 10 ∧ (10 : Nat) ≠ 7 :=
  ⟨Or.inl (by decide), by decide, by decide⟩

/-- C1 (amended): the pulse pattern's single per-frame color is selected
by the sign of `sin(0.2 * frame)` between the FIRST TWO palette entries
only; the mapping never reaches palette indices `2..P-1`, so (whatever
the sine's values) a palette of 12 colors can never show more than 2
distinct colors across any set of frames. -/
theorem c1_pulse_first_two_only (frameNumber textLength : Nat)
    (baseColors : List String) (h2 : 2 ≤ baseColors.length) (c : String)
    (hc : c ∈ generatePulseColors frameNumber textLength baseColors) :
    c = baseColors.getD 0 "" ∨ c = baseColors.getD 1 "" :=
  pulse_color_mem_first_two frameNumber textLength baseColors h2 c hc

/-- Witness for C1's amended statement at frame 0 and a two-color
palette. -/
theorem c1_pulse_first_two_only_witness :
    ∃ c, c ∈ generatePulseColors 0 3 ["#FF0000", "#00FF00"] ∧
      (c = (["#FF0000", "#00FF00"] : List String).getD 0 "" ∨
        c = (["#FF0000", "#00FF00"] : List String).getD 1 "") := by
  have hrep : ∃ col, generatePulseColors 0 3 ["#FF0000", "#00FF00"] =
      List.replicate 3 col := ⟨_, rfl⟩
  obtain ⟨col, hcol⟩ := hrep
  have hmem : col ∈ generatePulseColors 0 3 ["#FF0000", "#00FF00"] := by
    rw [hcol]
    exact List.mem_replicate.mpr ⟨by decide, rfl⟩
  exact ⟨col, hmem,
    c1_pulse_first_two_only 0 3 ["#FF0000", "#00FF00"] (by decide) col hmem⟩

/-- C1 counterexample: across the 100 consecutive frames 0..99 with a
12-color palette the pulse pattern produces at most 2 distinct colors,
hence fewer than the claimed 6. -/
theorem c1_pulse_counterexample :
    (((List.range 100).map fun f =>
        generatePulseColors f 1
          ["#FF0000", "#FF7F00", "#FFFF00", "#7FFF00", "#00FF00", "#00FF7F",
           "#00FFFF", "#007FFF", "#0000FF", "#7F00FF", "#FF00FF", "#FF007F"]).flatten.dedup).length < 6 := by
  set P : List String :=
    ["#FF0000", "#FF7F00", "#FFFF00", "#7FFF00", "#00FF00", "#00FF7F",
     "#00FFFF", "#007FFF", "#0000FF", "#7F00FF", "#FF00FF", "#FF007F"] with hP
  have hsub : (((List.range 100).map fun f =>
      generatePulseColors f 1 P).flatten.dedup) ⊆ [P.getD 0 "", P.getD 1 ""] := by
    intro c hcmem
    rw [List.mem_dedup, List.mem_flatten] at hcmem
    obtain ⟨l, hl, hcl⟩ := hcmem
    rw [List.mem_map] at hl
    obtain ⟨f, hf, rfl⟩ := hl
    rcases pulse_color_mem_first_two f 1 P (by rw [hP]; decide) c hcl with h | h
    · simp [h]
    · simp [h]
  have hnd : (((List.range 100).map fun f =>
      generatePulseColors f 1 P).flatten.dedup).Nodup := List.nodup_dedup _
  have hle := (hnd.subperm hsub).length_le
  simp only [List.length_cons, List.length_nil] at hle
  omega

/-- C9: ValidateAnimationConfig errors exactly when the config is nil,
the speed is non-positive, the palette is empty, some palette entry
fails the 7-bytes-leading-# format check, or the pattern is not one of
the four known variants. -/
theorem c9_validate_iff (config : Option AnimationConfig) :
    (∃ msg, validateAnimationConfig config = some msg) ↔
      config = none ∨
        ∃ cfg, config = some cfg ∧
          (cfg.speed ≤ 0 ∨ cfg.colors = [] ∨
            (∃ color ∈ cfg.colors, color.utf8ByteSize ≠ 7 ∨ color.front ≠ '#') ∨
            cfg.pattern ∉ getSupportedPatterns) := by
  cases config with
  | none => simp [validateAnimationConfig]
  | some cfg =>
    by_cases h1 : cfg.speed ≤ 0
    · simp [validateAnimationConfig, h1]
    · by_cases h2 : cfg.colors.length = 0
      · simp [validateAnimationConfig, h1, h2, List.length_eq_zero.mp h2]
      · cases hf : findInvalidColor 0 cfg.colors with
        | some ic =>
          obtain ⟨color, hmem, hinv⟩ := findInvalidColor_eq_some 0 cfg.colors ic hf
          simp [validateAnimationConfig, h1, h2, hf]
          exact Or.inr (Or.inl ⟨color, hmem, (colorFormatInvalid_iff color).mp hinv⟩)
        | none =>
          have hall := (findInvalidColor_eq_none 0 cfg.colors).mp hf
          by_cases h4 : getSupportedPatterns.contains cfg.pattern
          · simp only [validateAnimationConfig, h1, if_false, h2, hf, h4, if_true]
            constructor
            · intro hmsg; obtain ⟨msg, hmsg⟩ := hmsg; cases hmsg
            · intro hbad
              rcases hbad with hbad | ⟨c2, hc2, hbad⟩
              · cases hbad
              · cases hc2
                rcases hbad with hbad | hbad | ⟨color, hmem, hbad⟩ | hbad
                · exact absurd hbad h1
                · exact absurd (by rw [hbad]; rfl) h2
                · have := hall color hmem
                  rw [← Bool.not_eq_true] at this
                  exact absurd ((colorFormatInvalid_iff color).mpr hbad) this
                · exact absurd (List.elem_iff.mp h4) hbad
          · simp only [validateAnimationConfig, h1, if_false, h2, hf, h4, if_false]
            constructor
            · intro _
              refine Or.inr ⟨cfg, rfl, Or.inr (Or.inr (Or.inr ?_))⟩
              intro hmem
              exact h4 (List.elem_iff.mpr hmem)
            · intro _; exact ⟨_, rfl⟩

/-- C10: Render, invoked while enabled with display data, a cost and an
animation frame whose color list is empty, returns the centered ASCII
art as plain unstyled tokens — identical to rendering with no animation
frame — and raises no error. -/
theorem c10_render_empty_colors (d : DisplayData) (frame : AnimationFrame)
    (c : CostData) (hanim : d.animation = some frame)
    (hcolors : frame.colors = []) (hcost : d.cost = some c) :
    render true (some d) = render true (some ⟨d.cost, none, d.config⟩) ∧
    render true (some d) =
      .ok (plainToks (centerASCIIArt
        (generateASCIIArt c.totalCost d.config.size.width d.config.size.height)
        d.config.size.width d.config.size.height)) := by
  simp [render, hcost, hanim, applyRainbowColors, hcolors]

/-- Witness for C10 at a concrete cost and viewport. -/
theorem c10_render_empty_colors_witness :
    render true (some ⟨some ⟨85 / 2⟩, some ⟨[], ['$']⟩, ⟨⟨30, 8⟩⟩⟩) =
      render true (some ⟨some ⟨85 / 2⟩, none, ⟨⟨30, 8⟩⟩⟩) ∧
    render true (some ⟨some ⟨85 / 2⟩, some ⟨[], ['$']⟩, ⟨⟨30, 8⟩⟩⟩) =
      .ok (plainToks (centerASCIIArt (generateASCIIArt (85 / 2) 30 8) 30 8)) := by
  have h := c10_render_empty_colors ⟨some ⟨85 / 2⟩, some ⟨[], ['$']⟩, ⟨⟨30, 8⟩⟩⟩
    ⟨[], ['$']⟩ ⟨85 / 2⟩ rfl rfl rfl
  simpa using h

/-- C5 (amended): with a non-empty color list, applyRainbowColors styles
every cell of every canvas line — gap and padding cells included — with
`colors[(lineIndex*len(line) + byteOffset) mod P]`: the color depends on
the cell's row and byte position in the canvas, not on which source
character the cell's column belongs to. -/
theorem c5_compositor_cell_formula (text : GoStr) (frame : AnimationFrame)
    (hne : frame.colors ≠ []) (lineIndex : Nat) (line : GoStr) (off : Nat) (c : Char)
    (hline : (splitLines text)[lineIndex]? = some line)
    (hcell : (off, c) ∈ rangeBytes line) :
    Tok.styled
        (frame.colors.getD ((lineIndex * goBytes line + off) % frame.colors.length) "") c
      ∈ applyRainbowColors text (some frame) := by
  have hemp : frame.colors.isEmpty = false := by
    cases h : frame.colors with
    | nil => exact absurd h hne
    | cons a t => rfl
  have happ : applyRainbowColors text (some frame) =
      joinWith [Tok.plain '\n'] (styleLines frame.colors 0 (splitLines text)) := by
    simp [applyRainbowColors, hemp]
  rw [happ]
  refine mem_joinWith _ _ (styleLine frame.colors lineIndex line) _ ?_
    (mem_styleLine frame.colors lineIndex line off c hcell)
  have := styleLines_get frame.colors 0 lineIndex (splitLines text) line hline
  simpa using this

/-- Witness for C5's amended statement at a concrete two-line canvas. -/
theorem c5_compositor_cell_formula_witness :
    Tok.styled
        ((["#FF0000", "#00FF00"] : List String).getD
          ((1 * goBytes ['b'] + 0) % (["#FF0000", "#00FF00"] : List String).length) "") 'b'
      ∈ applyRainbowColors ['a', '\n', 'b']
          (some ⟨["#FF0000", "#00FF00"], ['a', '\n', 'b']⟩) :=
  c5_compositor_cell_formula ['a', '\n', 'b'] ⟨["#FF0000", "#00FF00"], ['a', '\n', 'b']⟩
    (by decide) 1 ['b'] 0 'b' (by decide) (by decide)

/-- C5 counterexample: a canvas holding the single source character `$`
is styled with BOTH palette colors on its block cells, so the cells of
one source character's glyph do not all receive that character's color,
refuting broadcast-per-source-character compositing. -/
theorem c5_compositor_counterexample :
    Tok.styled "#FF0000" '█' ∈
      applyRainbowColors (generateASCIIArtText ['$'] 30 8)
        (some ⟨["#FF0000", "#00FF00"], ['$']⟩) ∧
    Tok.styled "#00FF00" '█' ∈
      applyRainbowColors (generateASCIIArtText ['$'] 30 8)
        (some ⟨["#FF0000", "#00FF00"], ['$']⟩) ∧
    ("#FF0000" : String) ≠ "#00FF00" := by
  refine ⟨by decide, by decide, by decide⟩


/-! ## Byte-count lemmas -/

theorem goBytes_append (a b : GoStr) : goBytes (a ++ b) = goBytes a + goBytes b := by
  simp [goBytes]

theorem goBytes_cons (c : Char) (t : GoStr) :
    goBytes (c :: t) = c.utf8Size + goBytes t := by
  simp [goBytes]

theorem goBytes_pos (s : GoStr) (h : s ≠ []) : 1 ≤ goBytes s := by
  cases s with
  | nil => exact absurd rfl h
  | cons c t =>
    rw [goBytes_cons]
    have := Char.utf8Size_pos c
    omega

/-! ## Rasterizer-loop lemmas -/

/-- Shifting the byte offset and the byte total by the same amount leaves
the rasterizing loop unchanged: its gap test only compares their
difference. -/
theorem buildAux_shift (patterns : Char → Option (List GoStr)) (d : Nat) (B : GoStr) :
    ∀ (o T : Nat) (lines : List GoStr), 1 ≤ T →
      buildAux patterns (T + d) (o + d) B lines = buildAux patterns T o B lines := by
  induction B with
  | nil => intro o T lines hT; rfl
  | cons c rest ih =>
    intro o T lines hT
    simp only [buildAux]
    have hdec : decide (o + d < T + d - 1) = decide (o < T - 1) :=
      decide_eq_decide.mpr (by omega)
    rw [hdec]
    have e : o + d + c.utf8Size = o + c.utf8Size + d := by omega
    rw [e]
    exact ih (o + c.utf8Size) T _ hT

/-- A character with no glyph pattern, followed by at least one more
character, is dropped without trace: from any loop state, rasterizing
`A ++ x :: B` equals rasterizing `A ++ B`. -/
theorem buildAux_drop (patterns : Char → Option (List GoStr)) (x : Char)
    (hx : patterns x = none) (B : GoStr) (hB : B ≠ []) :
    ∀ (A : GoStr) (o : Nat) (lines : List GoStr),
      buildAux patterns (o + goBytes (A ++ x :: B)) o (A ++ x :: B) lines =
        buildAux patterns (o + goBytes (A ++ B)) o (A ++ B) lines := by
  intro A
  induction A with
  | nil =>
    intro o lines
    show buildAux patterns (o + goBytes (x :: B)) o (x :: B) lines =
      buildAux patterns (o + goBytes B) o B lines
    simp only [buildAux, hx]
    have e : o + goBytes (x :: B) = (o + goBytes B) + x.utf8Size := by
      rw [goBytes_cons]; omega
    rw [e]
    exact buildAux_shift patterns x.utf8Size B o (o + goBytes B) lines
      (by have := goBytes_pos B hB; omega)
  | cons a A2 ih =>
    intro o lines
    have hsa := Char.utf8Size_pos a
    have hux := Char.utf8Size_pos x
    have huB := goBytes_pos B hB
    show buildAux patterns (o + goBytes (a :: (A2 ++ x :: B))) o (a :: (A2 ++ x :: B)) lines =
      buildAux patterns (o + goBytes (a :: (A2 ++ B))) o (a :: (A2 ++ B)) lines
    simp only [buildAux]
    have g1 : goBytes (a :: (A2 ++ x :: B)) =
        a.utf8Size + (goBytes A2 + (x.utf8Size + goBytes B)) := by
      rw [goBytes_cons, goBytes_append, goBytes_cons]
    have g2 : goBytes (a :: (A2 ++ B)) = a.utf8Size + (goBytes A2 + goBytes B) := by
      rw [goBytes_cons, goBytes_append]
    have hd1 : decide (o < o + goBytes (a :: (A2 ++ x :: B)) - 1) = true :=
      decide_eq_true (by rw [g1]; omega)
    have hd2 : decide (o < o + goBytes (a :: (A2 ++ B)) - 1) = true :=
      decide_eq_true (by rw [g2]; omega)
    rw [hd1, hd2]
    have er1 : o + goBytes (a :: (A2 ++ x :: B)) =
        (o + a.utf8Size) + goBytes (A2 ++ x :: B) := by
      rw [goBytes_cons]; omega
    have er2 : o + goBytes (a :: (A2 ++ B)) = (o + a.utf8Size) + goBytes (A2 ++ B) := by
      rw [goBytes_cons]; omega
    rw [er1, er2]
    exact ih (o + a.utf8Size) _

/-- C8 (amended): the rasterizer silently drops characters that have no
glyph in the selected set: removing an unsupported character that is not
in final position from the source string leaves the canvas identical, so
unsupported characters are not treated as an error and not preserved. -/
theorem c8_rasterizer_drops_unsupported (A B : GoStr) (x : Char) (width height : Int)
    (hx : (selectPatterns width height).1 x = none) (hB : B ≠ []) :
    generateASCIIArtText (A ++ x :: B) width height =
      generateASCIIArtText (A ++ B) width height := by
  simp only [generateASCIIArtText]
  have h := buildAux_drop (selectPatterns width height).1 x hx B hB A 0
    (List.replicate (selectPatterns width height).2 [])
  rw [Nat.zero_add, Nat.zero_add] at h
  exact congrArg (joinWith ['\n']) h

set_option maxRecDepth 4000 in
/-- Witness for C8's amended statement: dropping '-' from "$-1.50". -/
theorem c8_rasterizer_drops_unsupported_witness :
    generateASCIIArtText (['$'] ++ '-' :: ['1', '.', '5', '0']) 30 8 =
      generateASCIIArtText (['$'] ++ ['1', '.', '5', '0']) 30 8 :=
  c8_rasterizer_drops_unsupported ['$'] ['1', '.', '5', '0'] '-' 30 8
    (by decide) (by decide)

set_option maxRecDepth 8000 in
/-- C8 counterexample: the source string "$-1.50" contains the
unsupported character '-', and its canvas is exactly the canvas of
"$1.50", the string with that character omitted: the rasterizer DOES
silently drop it. -/
theorem c8_rasterizer_counterexample :
    (selectPatterns 30 8).1 '-' = none ∧
    generateASCIIArtText ['$', '-', '1', '.', '5', '0'] 30 8 =
      generateASCIIArtText ['$', '1', '.', '5', '0'] 30 8 :=
  ⟨by decide, by decide⟩

/-! ## Line-splitting lemmas -/

theorem splitLines_ne_nil (s : GoStr) : splitLines s ≠ [] := by
  cases s with
  | nil => simp [splitLines]
  | cons c rest =>
    rw [splitLines]
    by_cases hc : c = '\n'
    · simp [hc]
    · rw [if_neg hc]
      cases h : splitLines rest with
      | nil => simp
      | cons l ls => simp

theorem mem_splitLines_no_newline (s : GoStr) (l : GoStr) (hl : l ∈ splitLines s) :
    '\n' ∉ l := by
  induction s generalizing l with
  | nil =>
    simp only [splitLines, List.mem_singleton] at hl
    subst hl
    simp
  | cons c rest ih =>
    rw [splitLines] at hl
    by_cases hc : c = '\n'
    · rw [if_pos hc] at hl
      rcases List.mem_cons.mp hl with h | h
      · subst h; simp
      · exact ih l h
    · rw [if_neg hc] at hl
      cases h : splitLines rest with
      | nil => exact absurd h (splitLines_ne_nil rest)
      | cons l0 ls =>
        simp only [h] at hl
        rcases List.mem_cons.mp hl with h2 | h2
        · subst h2
          intro hmem
          rcases List.mem_cons.mp hmem with h3 | h3
          · exact hc h3.symm
          · exact ih l0 (by rw [h]; exact List.mem_cons_self l0 ls) h3
        · exact ih l (by rw [h]; exact List.mem_cons_of_mem l0 h2)

theorem joinWith_splitLines (s : GoStr) : joinWith ['\n'] (splitLines s) = s := by
  induction s with
  | nil => rfl
  | cons c rest ih =>
    rw [splitLines]
    by_cases hc : c = '\n'
    · rw [if_pos hc]
      cases h : splitLines rest with
      | nil => exact absurd h (splitLines_ne_nil rest)
      | cons l ls =>
        rw [h] at ih
        show '\n' :: joinWith ['\n'] (l :: ls) = c :: rest
        rw [ih, hc]
    · rw [if_neg hc]
      cases h : splitLines rest with
      | nil => exact absurd h (splitLines_ne_nil rest)
      | cons l ls =>
        rw [h] at ih
        cases ls with
        | nil =>
          have hlr : l = rest := ih
          show c :: l = c :: rest
          rw [hlr]
        | cons l2 ls2 =>
          show (c :: l) ++ ['\n'] ++ joinWith ['\n'] (l2 :: ls2) = c :: rest
          have hrest : l ++ ['\n'] ++ joinWith ['\n'] (l2 :: ls2) = rest := ih
          rw [← hrest]
          simp

theorem splitLines_replicate_append (k : Nat) (t : GoStr) :
    splitLines (List.replicate k '\n' ++ t) = List.replicate k [] ++ splitLines t := by
  induction k with
  | zero => simp
  | succ n ih =>
    rw [List.replicate_succ, List.cons_append, splitLines, if_pos rfl, ih,
      List.replicate_succ, List.cons_append]

theorem splitLines_no_newline (l : GoStr) (h : '\n' ∉ l) : splitLines l = [l] := by
  induction l with
  | nil => rfl
  | cons c rest ih =>
    have hc : ¬ c = '\n' := by
      intro hcc
      exact h (by rw [hcc]; exact List.mem_cons_self '\n' rest)
    have hr : '\n' ∉ rest := fun hm => h (List.mem_cons_of_mem c hm)
    rw [splitLines, if_neg hc, ih hr]

theorem splitLines_append_newline (l t : GoStr) (h : '\n' ∉ l) :
    splitLines (l ++ '\n' :: t) = l :: splitLines t := by
  induction l with
  | nil => simp [splitLines]
  | cons c rest ih =>
    have hc : ¬ c = '\n' := by
      intro hcc
      exact h (by rw [hcc]; exact List.mem_cons_self '\n' rest)
    have hr : '\n' ∉ rest := fun hm => h (List.mem_cons_of_mem c hm)
    rw [List.cons_append, splitLines, if_neg hc, ih hr]

theorem joinWith_cons_cons {α : Type} (sep l1 l2 : List α) (rest : List (List α)) :
    joinWith sep (l1 :: l2 :: rest) = l1 ++ sep ++ joinWith sep (l2 :: rest) := rfl

theorem splitLines_joinWith_replicate (ls : List GoStr) (k : Nat) :
    ls ≠ [] → (∀ l ∈ ls, '\n' ∉ l) →
      splitLines (joinWith ['\n'] ls ++ List.replicate k '\n') =
        ls ++ List.replicate k [] := by
  induction ls with
  | nil => intro hne _; exact absurd rfl hne
  | cons l rest ih =>
    intro _ hnl
    have hl : '\n' ∉ l := hnl l (List.mem_cons_self l rest)
    cases rest with
    | nil =>
      cases k with
      | zero => simpa using splitLines_no_newline l hl
      | succ n =>
        have hj : joinWith ['\n'] [l] = l := rfl
        rw [hj, List.replicate_succ, splitLines_append_newline l _ hl]
        have h2 : splitLines (List.replicate n '\n') = List.replicate n [] ++ [[]] := by
          have h3 := splitLines_replicate_append n []
          simpa [splitLines] using h3
        rw [h2]
        simp [List.replicate_succ']
    | cons l2 rest2 =>
      rw [joinWith_cons_cons, List.append_assoc, List.append_assoc,
        List.singleton_append, splitLines_append_newline l _ hl,
        ih (by simp) (fun m hm => hnl m (List.mem_cons_of_mem l hm))]
      simp

/-! ## Maximum-line-width lemmas -/

theorem maxLineWidth_step (m w : Nat) : (if m < w then w else m) = max m w := by
  rw [max_def]
  split <;> split <;> omega

theorem maxLineWidth_eq_fold (ls : List GoStr) (a : Nat) :
    ls.foldl (fun m l => if m < l.length then l.length else m) a =
      ls.foldl (fun m l => max m l.length) a := by
  induction ls generalizing a with
  | nil => rfl
  | cons l rest ih => rw [List.foldl_cons, List.foldl_cons, maxLineWidth_step, ih]

theorem foldMax_shift (ls : List GoStr) (a : Nat) :
    ls.foldl (fun m l => max m l.length) a =
      max a (ls.foldl (fun m l => max m l.length) 0) := by
  induction ls generalizing a with
  | nil =>
    rw [List.foldl_nil, List.foldl_nil]
    exact (max_eq_left (Nat.zero_le a)).symm
  | cons l rest ih =>
    rw [List.foldl_cons, List.foldl_cons, ih (max a l.length),
      ih (max 0 l.length), max_eq_right (Nat.zero_le l.length), max_assoc]

theorem maxLineWidth_append (xs ys : List GoStr) :
    maxLineWidth (xs ++ ys) = max (maxLineWidth xs) (maxLineWidth ys) := by
  unfold maxLineWidth
  rw [maxLineWidth_eq_fold, maxLineWidth_eq_fold, maxLineWidth_eq_fold,
    List.foldl_append, foldMax_shift]

theorem maxLineWidth_replicate_nil (k : Nat) :
    maxLineWidth (List.replicate k []) = 0 := by
  induction k with
  | zero => rfl
  | succ n ih =>
    rw [List.replicate_succ]
    unfold maxLineWidth at ih ⊢
    rw [List.foldl_cons]
    simpa using ih

theorem maxLineWidth_singleton (l : GoStr) : maxLineWidth [l] = l.length := by
  unfold maxLineWidth
  rw [List.foldl_cons, maxLineWidth_step, List.foldl_nil,
    max_eq_right (Nat.zero_le l.length)]

theorem maxLineWidth_cons (l : GoStr) (rest : List GoStr) :
    maxLineWidth (l :: rest) = max l.length (maxLineWidth rest) := by
  have h : l :: rest = [l] ++ rest := rfl
  rw [h, maxLineWidth_append, maxLineWidth_singleton]

theorem maxLineWidth_map_pad (hp : Nat) (ls : List GoStr) :
    ls ≠ [] →
      maxLineWidth (ls.map fun l => List.replicate hp ' ' ++ l) =
        hp + maxLineWidth ls := by
  induction ls with
  | nil => intro hne; exact absurd rfl hne
  | cons l rest ih =>
    intro _
    cases rest with
    | nil =>
      rw [List.map_cons, List.map_nil, maxLineWidth_singleton, maxLineWidth_singleton]
      simp
    | cons l2 rest2 =>
      rw [List.map_cons, maxLineWidth_cons, ih (by simp)]
      simp only [List.length_append, List.length_replicate]
      rw [maxLineWidth_cons l (l2 :: rest2)]
      rw [max_add_add_left]

/-! ## Centering lemmas -/

theorem centerASCIIArt_eq (s : GoStr) (width height : Int) :
    centerASCIIArt s width height =
      List.replicate (vpadOf (splitLines s) height) '\n'
        ++ joinWith ['\n'] ((splitLines s).map fun l =>
            List.replicate (hpadOf (splitLines s) width) ' ' ++ l)
        ++ List.replicate (vpadOf (splitLines s) height) '\n' := by
  have h0 : ¬ (splitLines s).length = 0 := by
    have := splitLines_ne_nil s
    simpa [List.length_eq_zero] using this
  simp only [centerASCIIArt]
  rw [if_neg h0]

theorem splitLines_center (s : GoStr) (width height : Int) :
    splitLines (centerASCIIArt s width height) =
      List.replicate (vpadOf (splitLines s) height) []
        ++ (splitLines s).map (fun l =>
            List.replicate (hpadOf (splitLines s) width) ' ' ++ l)
        ++ List.replicate (vpadOf (splitLines s) height) [] := by
  rw [centerASCIIArt_eq, List.append_assoc, splitLines_replicate_append,
    splitLines_joinWith_replicate _ _ (by simp [splitLines_ne_nil s]) ?_,
    List.append_assoc]
  · intro m hm
    rw [List.mem_map] at hm
    obtain ⟨l, hl, rfl⟩ := hm
    intro hmem
    rcases List.mem_append.mp hmem with h | h
    · have := List.eq_of_mem_replicate h
      exact absurd this (by decide)
    · exact mem_splitLines_no_newline s l hl h

theorem splitLines_center_length (s : GoStr) (width height : Int) :
    (splitLines (centerASCIIArt s width height)).length =
      2 * vpadOf (splitLines s) height + (splitLines s).length := by
  rw [splitLines_center]
  simp [List.length_append, List.length_replicate, List.length_map]
  omega

theorem maxLineWidth_center (s : GoStr) (width height : Int) :
    maxLineWidth (splitLines (centerASCIIArt s width height)) =
      hpadOf (splitLines s) width + maxLineWidth (splitLines s) := by
  rw [splitLines_center, maxLineWidth_append, maxLineWidth_replicate_nil,
    maxLineWidth_append, maxLineWidth_replicate_nil,
    maxLineWidth_map_pad _ _ (splitLines_ne_nil s)]
  rw [max_eq_left (Nat.zero_le _), max_eq_right (Nat.zero_le _)]

/-- Centering leaves a canvas unchanged when the viewport exceeds neither
its maximum line width (by more than one column) nor its line count (by
more than one line): both paddings are then zero. -/
theorem center_eq_self (t : GoStr) (width height : Int)
    (hw : width ≤ (maxLineWidth (splitLines t) : Int) + 1)
    (hh : height ≤ ((splitLines t).length : Int) + 1) :
    centerASCIIArt t width height = t := by
  have hp0 : hpadOf (splitLines t) width = 0 := by
    unfold hpadOf
    split
    · omega
    · rfl
  have hv0 : vpadOf (splitLines t) height = 0 := by
    unfold vpadOf
    split
    · omega
    · rfl
  rw [centerASCIIArt_eq, hp0, hv0]
  simp only [List.replicate_zero, List.nil_append, List.append_nil, List.map_id']
  exact joinWith_splitLines t

/-- C6 (amended): centering is idempotent precisely when re-centering
adds no horizontal padding — whenever the viewport width exceeds the
canvas's maximum line width by at most 2 (in particular whenever the
first centering added no horizontal padding), centering the centered
canvas returns it unchanged; the vertical direction is idempotent for
every height. -/
theorem c6_centering_idempotent (s : GoStr) (width height : Int)
    (h : width ≤ (maxLineWidth (splitLines s) : Int) + 2) :
    centerASCIIArt (centerASCIIArt s width height) width height =
      centerASCIIArt s width height := by
  apply center_eq_self
  · rw [maxLineWidth_center]
    unfold hpadOf
    split
    · omega
    · omega
  · rw [splitLines_center_length]
    unfold vpadOf
    split
    · omega
    · omega

/-- Witness for C6's amended statement at a width within two columns of
the canvas width. -/
theorem c6_centering_idempotent_witness :
    centerASCIIArt (centerASCIIArt ['x'] 3 5) 3 5 = centerASCIIArt ['x'] 3 5 :=
  c6_centering_idempotent ['x'] 3 5 (by decide)

/-- C6 counterexample: centering the one-character canvas "x" in a 5 by 1
viewport gives "  x"; centering that result again gives "   x", a
different canvas, so centering is not idempotent in general. -/
theorem c6_centering_counterexample :
    centerASCIIArt (centerASCIIArt ['x'] 5 1) 5 1 = [' ', ' ', ' ', 'x'] ∧
    centerASCIIArt ['x'] 5 1 = [' ', ' ', 'x'] ∧
    ([' ', ' ', ' ', 'x'] : GoStr) ≠ [' ', ' ', 'x'] :=
  ⟨by decide, by decide, by decide⟩

end CcusageGorgeous
